import Mathlib

/-!
Verification of the selective-archival engine of the pycharm-projects-backup
repository (`pycharm_project_backup.py` and `pycharm_config_backup.py`).

The Python code is shallowly embedded: paths are lists of components joined
with a forward slash, file trees are finite inductive trees, the per-file
decision pipeline of `PyCharmBackupRestoreManager.backup` is a pure function,
and `zipfile` writes are modelled at the entry-name level.  All definitions
follow the source; the few places where an operating-system service is
abstracted (stat calls always succeed, extraction outcomes are an oracle)
are noted in the doc comments.
-/

namespace PyCharmBackup

/-! ## Character-list string primitives

Python string operations used by the source (`startswith`, `in`,
`endswith` via `Path.match`, `str.lower`, `str.split`) are modelled on
`List Char` so that everything reduces by `decide`/`rfl`. -/

/-- Boolean prefix test on character lists (Python `startswith`). -/
def charsPre : List Char → List Char → Bool
  | [], _ => true
  | _ :: _, [] => false
  | a :: as, b :: bs => a == b && charsPre as bs

/-- Boolean substring test on character lists (Python `pat in s`). -/
def charsContains (pat : List Char) : List Char → Bool
  | [] => pat.isEmpty
  | c :: rest => charsPre pat (c :: rest) || charsContains pat rest

/-- Python `s.startswith(pat)`. -/
def strStarts (s pat : String) : Bool := charsPre pat.data s.data

/-- Python `s.endswith(pat)` (used for the per-component `fnmatch` of a
pattern of the shape `*lit`). -/
def strEnds (s pat : String) : Bool := charsPre pat.data.reverse s.data.reverse

/-- Python `pat in s`. -/
def strContains (s pat : String) : Bool := charsContains pat.data s.data

/-- Python `s.lower()` (ASCII case folding, which is all the allowlists use). -/
def strLower (s : String) : String := String.mk (s.data.map Char.toLower)

/-- The `str(path).replace(chr(92), chr(47))` normalisation performed by
`FilePatternMatcher.is_in_include_paths`. -/
def normSlash (s : String) : String :=
  String.mk (s.data.map (fun c => if c == '\\' then '/' else c))

/-- Joining path components with a forward slash: `str()` of a POSIX
`pathlib.Path` built from these components. -/
def joinParts : List String → String
  | [] => ""
  | [p] => p
  | p :: q :: rest => p ++ "/" ++ joinParts (q :: rest)

/-- Python `str.split` on a slash, keeping empty fields (so that
`"a/".split(chr(47)) == ["a", ""]`), on character lists. -/
def splitSlashChars : List Char → List (List Char)
  | [] => [[]]
  | c :: rest =>
    let r := splitSlashChars rest
    if c == '/' then [] :: r
    else
      match r with
      | [] => [[c]]
      | g :: gs => (c :: g) :: gs

/-- Python `s.split(chr(47))`. -/
def pySplitSlash (s : String) : List String := (splitSlashChars s.data).map String.mk

/-- `pathlib.PurePosixPath(s).parts` for a relative path: the non-empty
slash-separated components. -/
def pyPathParts (s : String) : List String := (pySplitSlash s).filter (fun c => !(c == ""))

/-- Index of the last dot in a character list (`name.rfind` of a dot). -/
def lastDotIdx : List Char → Option Nat
  | [] => none
  | c :: rest =>
    match lastDotIdx rest with
    | some i => some (i + 1)
    | none => if c == '.' then some 0 else none

/-- `pathlib.PurePath.suffix`: the extension of the final component.  CPython
returns `name[i:]` when the last dot sits strictly inside the name and is not
its first character, and the empty string otherwise. -/
def pySuffix (name : String) : String :=
  match lastDotIdx name.data with
  | some i => if 0 < i ∧ i < name.data.length - 1 then String.mk (name.data.drop i) else ""
  | none => ""

/-! ## FilePatternMatcher (pycharm_project_backup.py) -/

/-- The `important_extensions` set of `FilePatternMatcher.is_important_file`. -/
def importantExtensions : List String :=
  [".py", ".json", ".yml", ".yaml", ".md", ".txt", ".ini", ".cfg",
   ".toml", ".html", ".css", ".js", ".xml", ".iml", ".gitignore",
   ".sql", ".rst", ".sh", ".bat", ".ps1", ".ipynb", ".java", ".properties",
   ".gradle", ".dart", ".kt", ".kts", ".tsx", ".ts", ".jsx"]

/-- The `important_filenames` set of `FilePatternMatcher.is_important_file`. -/
def importantFilenames : List String :=
  ["requirements.txt", "Pipfile", "Pipfile.lock", "pyproject.toml",
   "setup.py", "setup.cfg", "README.md", ".env.example", ".gitignore",
   "Dockerfile", "docker-compose.yml", "Makefile", "LICENSE", ".flake8",
   "poetry.lock", "package.json", "package-lock.json", "tsconfig.json",
   ".prettierrc", ".eslintrc", "tox.ini", ".coveragerc", ".babelrc",
   "webpack.config.js", "vue.config.js", "angular.json", "build.gradle"]

/-- `pathlib.PurePath.name`: the final component of a path given as its
component list. -/
def pathNameOf (parts : List String) : String := parts.getLastD ""

/-- `FilePatternMatcher.is_important_file(filepath, include_venv)`.  The
`include_venv` argument is present in the source signature but never read by
the body. -/
def is_important_file (filepath : List String) (include_venv : Bool) : Bool :=
  importantExtensions.contains (strLower (pySuffix (pathNameOf filepath)))
    || importantFilenames.contains (pathNameOf filepath)

/-- The `excluded_dirs` base set of `FilePatternMatcher.is_excluded_dir`. -/
def defaultExcludedDirs : List String :=
  ["__pycache__", ".git", ".idea", "dist", "build", "node_modules",
   "data", "logs", "temp", "tmp", ".pytest_cache", ".mypy_cache",
   ".ipynb_checkpoints", "output", "downloads", "coverage", "htmlcov"]

/-- The `venv_dirs` set of `FilePatternMatcher.is_excluded_dir` (the
environment-style directory names). -/
def venv_dirs : List String := ["venv", ".venv", "env", ".env", "virtualenv"]

/-- `FilePatternMatcher.is_excluded_dir(dirname, include_venv, custom_excludes)`. -/
def is_excluded_dir (dirname : String) (include_venv : Bool)
    (custom_excludes : List String) : Bool :=
  let excluded := if include_venv then defaultExcludedDirs
                  else defaultExcludedDirs ++ venv_dirs
  excluded.contains dirname || custom_excludes.any (fun pat => strContains dirname pat)

/-- `FilePatternMatcher.should_exclude_file(filepath, custom_excludes)`;
`filepathStr` is `str(filepath)`. -/
def should_exclude_file (filepathStr : String) (custom_excludes : List String) : Bool :=
  custom_excludes.any (fun pat => strContains filepathStr pat)

/-- `FilePatternMatcher.is_in_include_paths(rel_path, include_paths)`:
slash-normalised prefix test against every listed path; the empty list
matches nothing. -/
def is_in_include_paths (rel_path : String) (include_paths : List String) : Bool :=
  include_paths.any (fun ip => strStarts (normSlash rel_path) (normSlash ip))

/-! ## File trees

A snapshot of the scanned directory tree.  `os.walk` enumerates children in
the recorded order; stat calls are modelled by the recorded `size` (the
source recovers from stat failures by skipping the file, which the pure
model has no need of). -/

/-- One regular file with its `stat().st_size`. -/
structure FSFile where
  name : String
  size : Nat
deriving DecidableEq, Repr

mutual
inductive FSTree where
  | node (name : String) (files : List FSFile) (subdirs : FSForest) : FSTree
inductive FSForest where
  | nil : FSForest
  | cons (head : FSTree) (tail : FSForest) : FSForest
end

def FSTree.name : FSTree → String
  | .node n _ _ => n

def FSTree.files : FSTree → List FSFile
  | .node _ fs _ => fs

def FSTree.subdirs : FSTree → FSForest
  | .node _ _ sub => sub

def forestToList : FSForest → List FSTree
  | .nil => []
  | .cons t ts => t :: forestToList ts

def forestAny (p : FSTree → Bool) : FSForest → Bool
  | .nil => false
  | .cons t ts => p t || forestAny p ts

/-! ## Module auto-detection (`FilePatternMatcher.find_all_modules`) -/

/-- The literal pruning set used inside `find_all_modules`. -/
def moduleWalkExcluded : List String :=
  ["__pycache__", ".git", ".idea", "dist", "build", "node_modules",
   "data", "logs", "temp", "tmp", ".pytest_cache", ".mypy_cache",
   ".ipynb_checkpoints", "output", "downloads", "coverage", "htmlcov",
   "venv", ".venv", "env", ".env", "virtualenv"]

/-- `FilePatternMatcher.is_module_directory`: the directory directly contains
an entry named `__init__.py` (the source tests `exists()`, which is true for
a file or a directory of that name). -/
def is_module_directory (files : List FSFile) (subdirs : FSForest) : Bool :=
  files.any (fun f => f.name == "__init__.py")
    || forestAny (fun t => t.name == "__init__.py") subdirs

mutual
/-- The `os.walk` of `find_all_modules` over one directory: the directory
itself is tested first (top-down order), then the non-pruned children. -/
def find_all_modules_tree (parentRel : List String) (t : FSTree) : List (List String) :=
  match t with
  | .node n files sub =>
    let rel := parentRel ++ [n]
    (if is_module_directory files sub then [rel] else [])
      ++ find_all_modules_forest rel sub
def find_all_modules_forest (rel : List String) (f : FSForest) : List (List String) :=
  match f with
  | .nil => []
  | .cons t ts =>
    (if moduleWalkExcluded.contains t.name then [] else find_all_modules_tree rel t)
      ++ find_all_modules_forest rel ts
end

/-! ## The backup scan (`PyCharmBackupRestoreManager.backup`) -/

/-- The `stats` dictionary accumulated by `backup`. -/
structure Stats where
  included_files : Nat
  excluded_size : Nat
  excluded_count : Nat
  included_custom_paths : Nat
  included_modules : Nat
deriving DecidableEq, Repr

def Stats.init : Stats := ⟨0, 0, 0, 0, 0⟩

/-- The mutable state threaded through the walk: the statistics plus the
entry names written to the zip container so far. -/
structure BkState where
  stats : Stats
  archive : List String
deriving DecidableEq, Repr

/-- The keyword arguments of `backup` that drive the decision pipeline.
`prefixParts` are the path components of `pycharm_dir` itself (they take
part in the `in_venv` check and in `str(file_path)` for custom-exclusion
matching, exactly as `root_path.parts` and `str(file_path)` do). -/
structure BkConfig where
  include_venv : Bool
  custom_excludes : List String
  max_size_bytes : Nat
  include_paths : List String
  include_projects : List String
  exclude_projects : List String
  auto_include_modules : Bool
  prefixParts : List String
deriving Repr

/-- The four names of the `in_venv` membership test at line 763 of
`pycharm_project_backup.py` (note: `virtualenv` is absent here, unlike in
`venv_dirs`). -/
def inVenvNames : List String := ["venv", ".venv", "env", ".env"]

/-- `in_venv = any(venv_dir in root_path.parts for venv_dir in [...])`. -/
def inVenvCheck (absParts : List String) : Bool :=
  absParts.any (fun p => inVenvNames.contains p)

/-- The venv-branch acceptance test: for each entry of
`venv_important_files` the source evaluates
`file_path.match(pattern)` with the pattern `*entry*`.  Component-wise
`fnmatch` from the right gives: a one-component pattern `*lit*` is a
substring test on the filename, and a two-component pattern `*dir/name*`
requires the parent directory to end with `dir` and the filename to start
with `name`. -/
def venv_important_match (dirParts : List String) (fname : String) : Bool :=
  let lastDir := dirParts.getLastD ""
  strContains fname "pyvenv.cfg"
    || strContains fname "requirements.txt"
    || (strEnds lastDir "Scripts" && strStarts fname "activate")
    || (strEnds lastDir "Scripts" && strStarts fname "activate.bat")
    || (strEnds lastDir "Scripts" && strStarts fname "Activate.ps1")
    || (strEnds lastDir "bin" && strStarts fname "activate")

/-- Outcome of the per-file decision pipeline of `backup`. -/
inductive FileDecision where
  | customExcluded
  | sizeRejected
  | includedCustom
  | includedVenv
  | includedImportant
  | skipped
deriving DecidableEq, Repr

/-- Lines 766 to 859 of `pycharm_project_backup.py` for one file:
explicitly-included paths check custom exclusion then the size cap and are
accepted; all other files check custom exclusion, the size cap, then either
the venv-marker patterns (when inside a venv directory with
`include_venv`) or the important-file allowlist. -/
def fileDecision (cfg : BkConfig) (pathExpl inVenv : Bool) (rel : List String)
    (f : FSFile) : FileDecision :=
  let absStr := joinParts (cfg.prefixParts ++ rel ++ [f.name])
  if pathExpl then
    if should_exclude_file absStr cfg.custom_excludes then .customExcluded
    else if cfg.max_size_bytes < f.size then .sizeRejected
    else .includedCustom
  else
    if should_exclude_file absStr cfg.custom_excludes then .customExcluded
    else if cfg.max_size_bytes < f.size then .sizeRejected
    else if inVenv && cfg.include_venv then
      (if venv_important_match (cfg.prefixParts ++ rel) f.name then .includedVenv
       else .skipped)
    else if is_important_file [f.name] cfg.include_venv then .includedImportant
    else .skipped

/-- `zipfile.ZipFile.write(file_path, zip_path)` at the entry-name level:
the arcname is appended to the archive's entry list.  A duplicate arcname is
not rejected: the library stores a second entry under the same name (at most
emitting a `UserWarning`), so the call returns normally and the earlier
entry is shadowed by the later one on extraction. -/
def zipWrite (archive : List String) (arcname : String) : Except String (List String) :=
  Except.ok (archive ++ [arcname])

/-- The `try: zipf.write(...) except: continue` wrapper around each write. -/
def writeOrKeep (archive : List String) (arcname : String) : List String :=
  match zipWrite archive arcname with
  | Except.ok a => a
  | Except.error _ => archive

/-- Processing of one file inside the walk: the decision plus the statistics
update and (when not a dry run) the zip write that the source performs in
each branch. -/
def stepFile (cfg : BkConfig) (dry_run pathExpl inVenv : Bool) (rel : List String)
    (f : FSFile) (st : BkState) : BkState :=
  let zip_path := joinParts (rel ++ [f.name])
  match fileDecision cfg pathExpl inVenv rel f with
  | .customExcluded => st
  | .skipped => st
  | .sizeRejected =>
    { st with stats := { st.stats with
        excluded_size := st.stats.excluded_size + f.size,
        excluded_count := st.stats.excluded_count + 1 } }
  | .includedCustom =>
    { stats := { st.stats with
        included_files := st.stats.included_files + 1,
        included_custom_paths := st.stats.included_custom_paths + 1 },
      archive := if dry_run then st.archive else writeOrKeep st.archive zip_path }
  | .includedVenv =>
    { stats := { st.stats with included_files := st.stats.included_files + 1 },
      archive := if dry_run then st.archive else writeOrKeep st.archive zip_path }
  | .includedImportant =>
    { stats := { st.stats with included_files := st.stats.included_files + 1 },
      archive := if dry_run then st.archive else writeOrKeep st.archive zip_path }

/-- The pruning filter applied to `dirs[:]` at lines 755 to 760: when the
current directory is not explicitly included, a child survives when it is
not an excluded directory or when its own relative path matches an
include path or a module path. -/
def keepChild (cfg : BkConfig) (module_paths : List String) (rel : List String)
    (parentExpl : Bool) (childName : String) : Bool :=
  parentExpl
    || (!is_excluded_dir childName cfg.include_venv cfg.custom_excludes
        || is_in_include_paths (joinParts (rel ++ [childName])) cfg.include_paths
        || is_in_include_paths (joinParts (rel ++ [childName])) module_paths)

mutual
/-- The `os.walk` of `backup` over one directory whose path relative to
`pycharm_dir` is `parentRel ++ [name]`: compute `path_explicitly_included`
and `in_venv`, process the files, then descend into the surviving children. -/
def visitTree (cfg : BkConfig) (module_paths : List String) (dry_run : Bool)
    (parentRel : List String) (t : FSTree) (st : BkState) : BkState :=
  match t with
  | .node n files sub =>
    let rel := parentRel ++ [n]
    let relStr := joinParts rel
    let pathExpl := is_in_include_paths relStr cfg.include_paths
                      || is_in_include_paths relStr module_paths
    let inVenv := inVenvCheck (cfg.prefixParts ++ rel)
    let st1 := files.foldl (fun s f => stepFile cfg dry_run pathExpl inVenv rel f s) st
    visitForest cfg module_paths dry_run rel pathExpl sub st1
def visitForest (cfg : BkConfig) (module_paths : List String) (dry_run : Bool)
    (rel : List String) (parentExpl : Bool) (f : FSForest) (st : BkState) : BkState :=
  match f with
  | .nil => st
  | .cons t ts =>
    let st1 := if keepChild cfg module_paths rel parentExpl t.name
               then visitTree cfg module_paths dry_run rel t st else st
    visitForest cfg module_paths dry_run rel parentExpl ts st1
end

/-- The acceptance arm of the pipeline once custom exclusion and the size
cap have been passed: explicitly included, or venv-marker matched inside a
venv directory with `include_venv`, or on the important-file allowlist. -/
def wouldAccept (cfg : BkConfig) (pathExpl inVenv : Bool) (rel : List String)
    (fname : String) : Bool :=
  pathExpl
    || (if inVenv && cfg.include_venv
        then venv_important_match (cfg.prefixParts ++ rel) fname
        else is_important_file [fname] cfg.include_venv)

/-- Decisions under which the file lands in the archive. -/
def isIncludedDecision : FileDecision → Bool
  | .includedCustom => true
  | .includedVenv => true
  | .includedImportant => true
  | _ => false

/-- `ProjectUtils.get_project_dirs`: the child directories of `pycharm_dir`,
restricted by the include and exclude project lists. -/
def get_project_dirs (cfg : BkConfig) (root : FSForest) : List FSTree :=
  (forestToList root).filter (fun t =>
    (cfg.include_projects.isEmpty || cfg.include_projects.contains t.name)
      && !(cfg.exclude_projects.contains t.name))

/-- The per-project loop of `backup`: module auto-detection first (adding to
the cross-project `module_paths` list and to the module counter), then the
walk of the project directory. -/
def backupLoop (cfg : BkConfig) (dry_run : Bool) :
    List FSTree → List String → BkState → BkState
  | [], _, st => st
  | p :: rest, module_paths, st =>
    if cfg.auto_include_modules then
      let mods := find_all_modules_tree [] p
      let mp2 := module_paths ++ mods.map joinParts
      let st2 := { st with stats := { st.stats with
          included_modules := st.stats.included_modules + mods.length } }
      backupLoop cfg dry_run rest mp2 (visitTree cfg mp2 dry_run [] p st2)
    else
      backupLoop cfg dry_run rest module_paths
        (visitTree cfg module_paths dry_run [] p st)

/-- Observable result of one `backup` call: the reported statistics, and the
container file on disk (`none` when no file was created, which is the
dry-run case in which the source substitutes `contextlib.nullcontext()` for
the `zipfile.ZipFile(..., mode w)` opening). -/
structure BackupResult where
  stats : Stats
  container : Option (List String)
deriving DecidableEq, Repr

/-- `PyCharmBackupRestoreManager.backup` end to end over a snapshot of the
projects directory (stat and write calls succeed, as the claims assume). -/
def backup (cfg : BkConfig) (root : FSForest) (dry_run : Bool) : BackupResult :=
  let st := backupLoop cfg dry_run (get_project_dirs cfg root) [] ⟨Stats.init, []⟩
  { stats := st.stats,
    container := if dry_run then none else some st.archive }

/-! ## Restore (`PyCharmBackupRestoreManager.restore`)

Extraction of one entry may fail on the real filesystem; the outcome is an
oracle `extractOk`.  The source logs a failed extraction and continues with
the next entry, and returns `True` at the end of the loop. -/

/-- Result of one `restore` call: the returned boolean, the entries the loop
attempted to extract, and those actually extracted. -/
structure PBRestore where
  success : Bool
  attempted : List String
  restored : List String
deriving Repr

def dedupStr : List String → List String
  | [] => []
  | x :: xs => if x ∈ dedupStr xs then dedupStr xs else x :: dedupStr xs

/-- `Path(file_path).parts[0]` for a relative entry name, `none` when the
name has no components. -/
def entryFirstSeg (n : String) : Option String :=
  match pyPathParts n with
  | p :: _ => some p
  | [] => none

/-- The set of distinct first path segments of the archive entries. -/
def restoreProjectsOf (entries : List String) : List String :=
  dedupStr (entries.filterMap entryFirstSeg)

/-- The extraction loop of `restore` once the project set is fixed: the
matching entries are each attempted in turn (a failure is logged and the
loop continues), and the function returns `True`. -/
def pbGo (entries : List String) (projects : List String)
    (extractOk : String → Bool) : PBRestore :=
  let project_files := entries.filter (fun n =>
    match entryFirstSeg n with
    | some p => projects.contains p
    | none => false)
  ⟨true, project_files, project_files.filter extractOk⟩

/-- `PyCharmBackupRestoreManager.restore` over the entry list of the opened
archive.  An empty `selected_projects` list plays the role of `None` (both
are falsy at the `if selected_projects:` test); a non-empty selection that
matches none of the archive's projects returns `False` without attempting
anything. -/
def pb_restore (entries : List String) (selected_projects : List String)
    (extractOk : String → Bool) : PBRestore :=
  if selected_projects.isEmpty then pbGo entries (restoreProjectsOf entries) extractOk
  else
    let projects := (restoreProjectsOf entries).filter
      (fun p => selected_projects.contains p)
    if projects.isEmpty then ⟨false, [], []⟩
    else pbGo entries projects extractOk

/-! ## pycharm_config_backup.py: verification -/

/-- `verify_backup(backup_file, original_files)`: reopen the container and
compare entry counts; `False` exactly when the archive holds fewer entries
than expected. -/
def verify_backup (backup_files original_files : List String) : Bool :=
  if backup_files.length < original_files.length then false else true

/-- Observable outcome of the tail of `create_backup` once writing is done:
the boolean the function returns, the archive file as left on disk, and
whether the verification warning was logged. -/
structure CreateBackupOutcome where
  returnedOk : Bool
  archiveOnDisk : Option (List String)
  verifyWarning : Bool
deriving DecidableEq, Repr

/-- Lines 518 to 533 of `pycharm_config_backup.py`: after the zip is
written, `verify_backup` runs on the reopened entry list; on failure a
warning is logged and `False` is returned, and nothing deletes or rewrites
the archive file. -/
def create_backup_verify_phase (writtenEntries : List String)
    (original_files : List String) : CreateBackupOutcome :=
  let ok := verify_backup writtenEntries original_files
  { returnedOk := ok, archiveOnDisk := some writtenEntries, verifyWarning := !ok }

/-! ## pycharm_config_backup.py: listing, namespaces and restore -/

/-- The reserved namespace of recent-projects payloads. -/
def reservedRecent : String := "_pycharm_recent_projects/"

/-- The reserved namespace of global-settings payloads. -/
def reservedGlobalSettings : String := "_pycharm_global_settings/"

/-- An entry skipped by `list_projects_in_backup` as a reserved payload. -/
def isReservedEntry (n : String) : Bool :=
  strStarts n reservedRecent || strStarts n reservedGlobalSettings

/-- Code-point comparison of strings (Python string ordering used by
`sorted`). -/
def charsLt : List Char → List Char → Bool
  | [], [] => false
  | [], _ :: _ => true
  | _ :: _, [] => false
  | a :: as, b :: bs => decide (a < b) || (a == b && charsLt as bs)

def strLtB (a b : String) : Bool := charsLt a.data b.data

def insertAsc (x : String) : List String → List String
  | [] => [x]
  | y :: ys => if strLtB y x then y :: insertAsc x ys else x :: y :: ys

/-- `sorted(...)` on strings. -/
def sortStr : List String → List String
  | [] => []
  | x :: xs => insertAsc x (sortStr xs)

/-- `parts[1]` of `filename.split(chr(47))` when the split has at least two
fields (the test `len(parts) >= 2` of `list_projects_in_backup`). -/
def entrySecondSeg (n : String) : Option String :=
  match pySplitSlash n with
  | _ :: p :: _ => some p
  | _ => none

/-- `list_projects_in_backup`: reserved entries are skipped, every other
entry with at least two slash-separated fields contributes its second field,
and the distinct names are returned sorted. -/
def list_projects_in_backup (entries : List String) : List String :=
  sortStr (dedupStr (entries.filterMap (fun n =>
    if isReservedEntry n then none else entrySecondSeg n)))

/-- Modelled from the spec: the "derived project-namespace set (the distinct
top-level path segments, excluding reserved namespaces)" that the claim says
the listing returns; used only to compare the listing against the claim's
own words. -/
def specTopLevelSegs (entries : List String) : List String :=
  sortStr (dedupStr (entries.filterMap (fun n =>
    if isReservedEntry n then none
    else match pySplitSlash n with
         | p :: _ => some p
         | [] => none)))

/-- The entry-name test of `restore_project`: membership of the project is
`filename.startswith(basename(projects_dir) + chr(47) + project_name)`. -/
def restore_project_entries (base : String) (entries : List String) (p : String) :
    List String :=
  entries.filter (fun n => strStarts n (base ++ "/" ++ p))

/-- `restore_project` succeeds when the project directory with its `.idea`
exists on disk (the oracle `dirOk`) and the backup holds at least one
matching entry. -/
def restore_project_model (base : String) (entries : List String)
    (dirOk : String → Bool) (p : String) : Bool :=
  dirOk p && entries.any (fun n => strStarts n (base ++ "/" ++ p))

/-- `restore_projects`: scope `all` (the empty list) restores every project
named by `list_projects_in_backup`; the function returns `True` exactly when
at least one project was restored. -/
def restore_projects_model (base : String) (entries : List String)
    (scope : List String) (dirOk : String → Bool) : Bool × Nat :=
  let projects := if scope.isEmpty then list_projects_in_backup entries else scope
  let cnt := (projects.filter (restore_project_model base entries dirOk)).length
  (decide (0 < cnt), cnt)

/-- The set of entries extracted by a scope-`all` restore, together with the
two optional reserved-payload passes (`restore_recent_projects` and
`restore_global_settings` filter on their prefixes). -/
def restore_all_extracted (base : String) (entries : List String)
    (withRecent withGlobal : Bool) : List String :=
  ((list_projects_in_backup entries).flatMap (restore_project_entries base entries))
    ++ (if withRecent then entries.filter (fun n => strStarts n reservedRecent) else [])
    ++ (if withGlobal then entries.filter (fun n => strStarts n reservedGlobalSettings) else [])

/-! ## pycharm_config_backup.py: backup filename patterns -/

/-- Consume a literal from the head of the character list (a regex literal
run). -/
def stripLit : List Char → List Char → Option (List Char)
  | [], s => some s
  | _ :: _, [] => none
  | a :: as, b :: bs => if a == b then stripLit as bs else none

/-- Consume one character matching the regex class of digits. -/
def stripDigit : List Char → Option (List Char)
  | [] => none
  | c :: cs => if c.isDigit then some cs else none

/-- The regex of `clean_old_backups`
(two digits, underscore, two digits, underscore, four digits) applied with
`re.match`, so anchored on the left only. -/
def cleanBackupPatChars (s : List Char) : Option (List Char) :=
  (stripLit "pycharm_idea_backup_".data s).bind
    stripDigit |>.bind stripDigit
    |>.bind (stripLit [('_' : Char)]) |>.bind stripDigit |>.bind stripDigit
    |>.bind (stripLit [('_' : Char)]) |>.bind stripDigit |>.bind stripDigit
    |>.bind stripDigit |>.bind stripDigit
    |>.bind (stripLit [('.' : Char), 'z', 'i', 'p'])

def cleanBackupMatch (s : String) : Bool := (cleanBackupPatChars s.data).isSome

/-- The regex of `list_backups`
(four digits, dash, two digits, dash, two digits, underscore, two digits,
dash, two digits) applied with `re.match`. -/
def listBackupPatChars (s : List Char) : Option (List Char) :=
  (stripLit "pycharm_idea_backup_".data s).bind
    stripDigit |>.bind stripDigit |>.bind stripDigit |>.bind stripDigit
    |>.bind (stripLit [('-' : Char)]) |>.bind stripDigit |>.bind stripDigit
    |>.bind (stripLit [('-' : Char)]) |>.bind stripDigit |>.bind stripDigit
    |>.bind (stripLit [('_' : Char)]) |>.bind stripDigit |>.bind stripDigit
    |>.bind (stripLit [('-' : Char)]) |>.bind stripDigit |>.bind stripDigit
    |>.bind (stripLit [('.' : Char), 'z', 'i', 'p'])

def listBackupMatch (s : String) : Bool := (listBackupPatChars s.data).isSome

/-- A name is default-shaped when the `list_backups` pattern consumes it
entirely: `pycharm_idea_backup_` + YYYY-MM-DD_HH-MM + `.zip` and nothing
after it, which is the shape `create_backup` produces by default. -/
def isDefaultNameShape (s : String) : Bool :=
  match listBackupPatChars s.data with
  | some rest => rest.isEmpty
  | none => false

/-- One digit character of a zero-padded decimal field. -/
def digitChar (n : Nat) : Char :=
  match n % 10 with
  | 0 => '0' | 1 => '1' | 2 => '2' | 3 => '3' | 4 => '4'
  | 5 => '5' | 6 => '6' | 7 => '7' | 8 => '8' | _ => '9'

/-- `strftime` zero-padded two-digit field. -/
def pad2 (n : Nat) : String := String.mk [digitChar (n / 10), digitChar n]

/-- `strftime` four-digit year field (years 1000 to 9999). -/
def pad4 (n : Nat) : String :=
  String.mk [digitChar (n / 1000), digitChar (n / 100), digitChar (n / 10), digitChar n]

/-- The default output filename built by `create_backup` from
`strftime` with the pattern year-month-day underscore hour-minute. -/
def defaultBackupName (y mo d h mi : Nat) : String :=
  "pycharm_idea_backup_" ++ pad4 y ++ "-" ++ pad2 mo ++ "-" ++ pad2 d
    ++ "_" ++ pad2 h ++ "-" ++ pad2 mi ++ ".zip"

def insertDesc (mtime : String → Nat) (x : String) : List String → List String
  | [] => [x]
  | y :: ys => if mtime y ≤ mtime x then x :: y :: ys else y :: insertDesc mtime x ys

/-- `sort(key=getmtime, reverse=True)` (a stable sort, newest first). -/
def sortDesc (mtime : String → Nat) : List String → List String
  | [] => []
  | x :: xs => insertDesc mtime x (sortDesc mtime xs)

/-- `clean_old_backups` over a directory listing: the files it removes.
Nothing is removed for a non-positive `max_backups` or when at most
`max_backups` names match the pattern; otherwise the oldest matching names
beyond the newest `max_backups` are removed. -/
def clean_old_backups (listing : List String) (mtime : String → Nat)
    (max_backups : Int) : List String :=
  if max_backups ≤ 0 then []
  else
    let backups := listing.filter cleanBackupMatch
    if backups.length ≤ max_backups.toNat then []
    else (sortDesc mtime backups).drop max_backups.toNat

/-- `list_backups` over a directory listing: the names matching its pattern,
newest first. -/
def list_backups (listing : List String) (mtime : String → Nat) : List String :=
  sortDesc mtime (listing.filter listBackupMatch)

/-! ## Theorems -/

/-! ### Auxiliary lemmas on the string primitives and sorting helpers -/

theorem data_append (a b : String) : (a ++ b).data = a.data ++ b.data := by
  cases a
  cases b
  rfl

theorem charsPre_of_append (p q : List Char) :
    ∀ s, charsPre (p ++ q) s = true → charsPre p s = true := by
  induction p with
  | nil => intro s _; rfl
  | cons a as ih =>
    intro s h
    cases s with
    | nil => exact absurd h (by simp [charsPre])
    | cons b bs =>
      simp only [List.cons_append, charsPre, Bool.and_eq_true] at h ⊢
      exact ⟨h.1, ih bs h.2⟩

theorem charsPre_length (p : List Char) :
    ∀ q, charsPre p q = true → p.length ≤ q.length := by
  induction p with
  | nil => intro q _; exact Nat.zero_le _
  | cons a as ih =>
    intro q h
    cases q with
    | nil => exact absurd h (by simp [charsPre])
    | cons b bs =>
      simp only [charsPre, Bool.and_eq_true] at h
      simpa using ih bs h.2

theorem charsPre_self_append (p r : List Char) : charsPre p (p ++ r) = true := by
  induction p with
  | nil => rfl
  | cons a as ih => simpa [charsPre] using ih

theorem charsPre_of_both (p q : List Char) :
    ∀ s, charsPre p s = true → charsPre q s = true → p.length ≤ q.length →
      charsPre p q = true := by
  induction p generalizing q with
  | nil => intro s _ _ _; rfl
  | cons a as ih =>
    intro s h1 h2 hl
    cases s with
    | nil => exact absurd h1 (by simp [charsPre])
    | cons c cs =>
      cases q with
      | nil => simp at hl
      | cons b bs =>
        simp only [charsPre, Bool.and_eq_true, beq_iff_eq] at h1 h2 ⊢
        refine ⟨h1.1.trans h2.1.symm, ih bs cs h1.2 h2.2 (by simpa using hl)⟩

theorem charsPre_eq_of_length (p : List Char) :
    ∀ q, charsPre p q = true → p.length = q.length → p = q := by
  induction p with
  | nil =>
    intro q _ hl
    cases q with
    | nil => rfl
    | cons b bs => simp at hl
  | cons a as ih =>
    intro q h hl
    cases q with
    | nil => simp at hl
    | cons b bs =>
      simp only [charsPre, Bool.and_eq_true, beq_iff_eq] at h
      rw [h.1, ih bs h.2 (by simpa using hl)]

theorem charsPre_mem (p : List Char) (c : Char) :
    ∀ q, charsPre p q = true → c ∈ p → c ∈ q := by
  induction p with
  | nil => intro q _ hm; simp at hm
  | cons a as ih =>
    intro q h hm
    cases q with
    | nil => exact absurd h (by simp [charsPre])
    | cons b bs =>
      simp only [charsPre, Bool.and_eq_true, beq_iff_eq] at h
      rcases List.mem_cons.mp hm with rfl | hm2
      · rw [h.1]; exact List.mem_cons_self _ _
      · exact List.mem_cons_of_mem _ (ih bs h.2 hm2)

theorem charsPre_snoc (p q : List Char) (c : Char)
    (h : charsPre p (q ++ [c]) = true) (hl : p.length ≤ q.length) :
    charsPre p q = true :=
  charsPre_of_both p q (q ++ [c]) h (charsPre_self_append q [c]) hl

/-- Two slash-terminated prefixes with slash-free bodies of the same string
have equal bodies. -/
theorem slash_bodies_eq_aux (a r n : List Char) (hr : ('/' : Char) ∉ r)
    (hle : a.length ≤ r.length)
    (h1 : charsPre (a ++ [('/' : Char)]) n = true)
    (h2 : charsPre (r ++ [('/' : Char)]) n = true) : a = r := by
  have hpre : charsPre (a ++ [('/' : Char)]) (r ++ [('/' : Char)]) = true :=
    charsPre_of_both _ _ n h1 h2 (by simp [hle])
  rcases Nat.lt_or_ge a.length r.length with hlt | hge
  · have hp2 : charsPre (a ++ [('/' : Char)]) r = true :=
      charsPre_snoc _ _ _ hpre (by simp; omega)
    have hm : ('/' : Char) ∈ r := charsPre_mem _ _ _ hp2 (by simp)
    exact absurd hm hr
  · have hlen : (a ++ [('/' : Char)]).length = (r ++ [('/' : Char)]).length := by
      simp
      omega
    have heq := charsPre_eq_of_length _ _ hpre hlen
    simpa [List.dropLast_concat] using congrArg List.dropLast heq

theorem slash_bodies_eq (a r n : List Char) (ha : ('/' : Char) ∉ a)
    (hr : ('/' : Char) ∉ r)
    (h1 : charsPre (a ++ [('/' : Char)]) n = true)
    (h2 : charsPre (r ++ [('/' : Char)]) n = true) : a = r := by
  rcases Nat.le_total a.length r.length with hle | hle
  · exact slash_bodies_eq_aux a r n hr hle h1 h2
  · exact (slash_bodies_eq_aux r a n ha hle h2 h1).symm

theorem mem_insertAsc (x a : String) : ∀ l : List String,
    a ∈ insertAsc x l ↔ a = x ∨ a ∈ l := by
  intro l
  induction l with
  | nil => simp [insertAsc]
  | cons y ys ih =>
    simp only [insertAsc]
    cases h : strLtB y x <;> simp [List.mem_cons, ih] <;> tauto

theorem mem_sortStr (a : String) : ∀ l : List String, a ∈ sortStr l ↔ a ∈ l := by
  intro l
  induction l with
  | nil => simp [sortStr]
  | cons x xs ih => simp [sortStr, mem_insertAsc, ih]

theorem mem_dedupStr (a : String) : ∀ l : List String, a ∈ dedupStr l ↔ a ∈ l := by
  intro l
  induction l with
  | nil => simp [dedupStr]
  | cons x xs ih =>
    simp only [dedupStr]
    by_cases hc : x ∈ dedupStr xs
    · simp only [hc, if_true, ih, List.mem_cons]
      constructor
      · exact fun h => Or.inr h
      · rintro (rfl | h)
        · exact ih.mp hc
        · exact h
    · simp [hc, List.mem_cons, ih]

theorem mem_insertDesc (mtime : String → Nat) (x a : String) :
    ∀ l : List String, a ∈ insertDesc mtime x l ↔ a = x ∨ a ∈ l := by
  intro l
  induction l with
  | nil => simp [insertDesc]
  | cons y ys ih =>
    simp only [insertDesc]
    split <;> simp [List.mem_cons, ih] <;> tauto

theorem mem_sortDesc (mtime : String → Nat) (a : String) :
    ∀ l : List String, a ∈ sortDesc mtime l ↔ a ∈ l := by
  intro l
  induction l with
  | nil => simp [sortDesc]
  | cons x xs ih => simp [sortDesc, mem_insertDesc, ih]

/-- C1: the archive writer used by `backup` does not reject a duplicate
archive-relative name.  Writing `proj1/a.py` into an archive that already
holds an entry of that name returns normally (`Except.ok`, so no error is
reported) and stores a second entry; the entry names are then no longer
unique inside the archive, and on extraction the later entry silently
shadows the earlier one.  This refutes the claimed rejection. -/
theorem duplicate_arcname_write_accepted :
    zipWrite ["proj1/a.py"] "proj1/a.py" = Except.ok ["proj1/a.py", "proj1/a.py"]
      ∧ ¬ List.Nodup ["proj1/a.py", "proj1/a.py"] :=
  ⟨rfl, by decide⟩

/-- C10: `is_important_file` returns the same result for both values of
`include_venv`, and its value is exactly membership of the lowercased
extension in the extension allowlist or of the exact filename in the
filename allowlist. -/
theorem important_file_ignores_include_venv (filepath : List String) (v1 v2 : Bool) :
    is_important_file filepath v1 = is_important_file filepath v2
      ∧ is_important_file filepath v1
          = (importantExtensions.contains (strLower (pySuffix (pathNameOf filepath)))
             || importantFilenames.contains (pathNameOf filepath)) :=
  ⟨rfl, rfl⟩

/-- C8: `verify_backup` returns `true` exactly when the reopened archive
holds at least as many entries as there were source files; and after a
backup write, a failing check leaves the archive file on disk untouched, is
surfaced as the verification warning, and `create_backup` still returns its
boolean result (`false`, flagging the degraded backup) instead of raising or
deleting anything. -/
theorem verification_check_contract (written originals : List String) :
    (verify_backup written originals = true ↔ originals.length ≤ written.length)
      ∧ (create_backup_verify_phase written originals).archiveOnDisk = some written
      ∧ (create_backup_verify_phase written originals).returnedOk
          = verify_backup written originals
      ∧ (create_backup_verify_phase written originals).verifyWarning
          = !(verify_backup written originals) := by
  refine ⟨?_, rfl, rfl, rfl⟩
  unfold verify_backup
  split <;> simp <;> omega

/-- Closed instance of the verification-check contract at a concrete archive
with fewer entries than sources. -/
theorem verification_check_contract_witness :
    (verify_backup ["e1"] ["s1", "s2"] = true
        ↔ (["s1", "s2"] : List String).length ≤ (["e1"] : List String).length)
      ∧ (create_backup_verify_phase ["e1"] ["s1", "s2"]).archiveOnDisk = some ["e1"]
      ∧ (create_backup_verify_phase ["e1"] ["s1", "s2"]).returnedOk
          = verify_backup ["e1"] ["s1", "s2"]
      ∧ (create_backup_verify_phase ["e1"] ["s1", "s2"]).verifyWarning
          = !(verify_backup ["e1"] ["s1", "s2"]) :=
  verification_check_contract ["e1"] ["s1", "s2"]

/-- C7 counterexample: restoring an archive whose single entry fails to
extract — `PyCharmBackupRestoreManager.restore` still returns success
although zero entries were restored, refuting the claimed "success if and
only if at least one entry was actually restored". -/
theorem restore_success_with_zero_restored :
    (pb_restore ["p/a"] [] (fun _ => false)).success = true
      ∧ (pb_restore ["p/a"] [] (fun _ => false)).restored = [] :=
  ⟨rfl, rfl⟩

/-- C7 (amended): a failed extraction is logged and the loop continues — the
attempted entry list does not depend on the extraction outcomes and exactly
the attempted entries whose extraction succeeds are restored;
`PyCharmBackupRestoreManager.restore` then reports success exactly when the
(possibly filtered) project set is non-empty, regardless of how many entries
were restored, while `restore_projects` of the config tool reports success
exactly when at least one project was restored. -/
theorem restore_partial_failure_policy (entries selected : List String)
    (ok1 ok2 : String → Bool) (base : String) (scope : List String)
    (dirOk : String → Bool) :
    (pb_restore entries selected ok1).attempted
        = (pb_restore entries selected ok2).attempted
      ∧ (pb_restore entries selected ok1).restored
          = ((pb_restore entries selected ok1).attempted).filter ok1
      ∧ (pb_restore entries selected ok1).success
          = (selected.isEmpty
             || !((restoreProjectsOf entries).filter
                    (fun p => selected.contains p)).isEmpty)
      ∧ ((restore_projects_model base entries scope dirOk).1 = true
          ↔ 0 < (restore_projects_model base entries scope dirOk).2) := by
  have hred : ∀ P : PBRestore → Prop,
      (∀ projects, P (pbGo entries projects ok1)) → P ⟨false, [], []⟩ →
      P (pb_restore entries selected ok1) := by
    intro P hgo hfail
    cases hs : selected.isEmpty
    · simp only [pb_restore, hs, Bool.false_eq_true, if_false]
      cases hq : ((restoreProjectsOf entries).filter
          (fun p => selected.contains p)).isEmpty
      · simp only [hq, Bool.false_eq_true, if_false]
        exact hgo _
      · simp only [hq, if_true]
        exact hfail
    · simp only [pb_restore, hs, if_true]
      exact hgo _
  refine ⟨?_, ?_, ?_, ?_⟩
  · cases hs : selected.isEmpty
    · simp only [pb_restore, hs, Bool.false_eq_true, if_false]
      cases hq : ((restoreProjectsOf entries).filter
          (fun p => selected.contains p)).isEmpty <;>
        simp only [hq, Bool.false_eq_true, if_false, if_true] <;> rfl
    · simp only [pb_restore, hs, if_true]
      rfl
  · refine hred (fun r => r.restored = r.attempted.filter ok1) (fun projects => rfl) ?_
    rfl
  · cases hs : selected.isEmpty
    · simp only [pb_restore, hs, Bool.false_eq_true, if_false, Bool.false_or]
      cases hq : ((restoreProjectsOf entries).filter
          (fun p => selected.contains p)).isEmpty <;>
        simp only [hq, Bool.false_eq_true, if_false, if_true, Bool.not_false,
          Bool.not_true, pbGo] <;> try rfl
    · simp only [pb_restore, hs, if_true, Bool.true_or, pbGo]
  · simp only [restore_projects_model, decide_eq_true_iff]

/-- Closed instance of the partial-failure policy at a two-project archive
where one extraction fails. -/
theorem restore_partial_failure_policy_witness :
    (pb_restore ["p/a", "p/b", "q/c"] ["p"] (fun s => s == "p/a")).attempted
        = (pb_restore ["p/a", "p/b", "q/c"] ["p"] (fun _ => true)).attempted
      ∧ (pb_restore ["p/a", "p/b", "q/c"] ["p"] (fun s => s == "p/a")).restored
          = ((pb_restore ["p/a", "p/b", "q/c"] ["p"] (fun s => s == "p/a")).attempted).filter
              (fun s => s == "p/a")
      ∧ (pb_restore ["p/a", "p/b", "q/c"] ["p"] (fun s => s == "p/a")).success
          = ((["p"] : List String).isEmpty
             || !((restoreProjectsOf ["p/a", "p/b", "q/c"]).filter
                    (fun p => (["p"] : List String).contains p)).isEmpty)
      ∧ ((restore_projects_model "Projects" ["p/a", "p/b", "q/c"] [] (fun _ => true)).1 = true
          ↔ 0 < (restore_projects_model "Projects" ["p/a", "p/b", "q/c"] [] (fun _ => true)).2) :=
  restore_partial_failure_policy ["p/a", "p/b", "q/c"] ["p"]
    (fun s => s == "p/a") (fun _ => true) "Projects" [] (fun _ => true)

/-- Statistics updates of one file step do not depend on the dry-run flag or
on the archive accumulated so far. -/
theorem stepFile_stats_eq (cfg : BkConfig) (d1 d2 pe iv : Bool) (rel : List String)
    (f : FSFile) (s1 s2 : BkState) (h : s1.stats = s2.stats) :
    (stepFile cfg d1 pe iv rel f s1).stats = (stepFile cfg d2 pe iv rel f s2).stats := by
  cases hd : fileDecision cfg pe iv rel f <;>
    simp only [stepFile, hd] <;> simp [h]

/-- Statistics of the per-directory file fold do not depend on the dry-run
flag. -/
theorem foldFiles_stats_eq (cfg : BkConfig) (d1 d2 pe iv : Bool) (rel : List String) :
    ∀ (files : List FSFile) (s1 s2 : BkState), s1.stats = s2.stats →
      (files.foldl (fun s f => stepFile cfg d1 pe iv rel f s) s1).stats
        = (files.foldl (fun s f => stepFile cfg d2 pe iv rel f s) s2).stats
  | [], _, _, h => h
  | f :: fs, s1, s2, h => by
      simp only [List.foldl_cons]
      exact foldFiles_stats_eq cfg d1 d2 pe iv rel fs _ _
        (stepFile_stats_eq cfg d1 d2 pe iv rel f s1 s2 h)

mutual
/-- Statistics of the walk of one directory do not depend on the dry-run
flag. -/
theorem visitTree_stats_eq (cfg : BkConfig) (mp : List String) (d1 d2 : Bool) :
    ∀ (pr : List String) (t : FSTree) (s1 s2 : BkState), s1.stats = s2.stats →
      (visitTree cfg mp d1 pr t s1).stats = (visitTree cfg mp d2 pr t s2).stats
  | pr, .node n files sub, s1, s2, h => by
      simp only [visitTree]
      exact visitForest_stats_eq cfg mp d1 d2 (pr ++ [n])
        (is_in_include_paths (joinParts (pr ++ [n])) cfg.include_paths
          || is_in_include_paths (joinParts (pr ++ [n])) mp) sub _ _
        (foldFiles_stats_eq cfg d1 d2 _ _ (pr ++ [n]) files s1 s2 h)
/-- Statistics of the walk of a sibling list do not depend on the dry-run
flag. -/
theorem visitForest_stats_eq (cfg : BkConfig) (mp : List String) (d1 d2 : Bool) :
    ∀ (rel : List String) (pe : Bool) (fr : FSForest) (s1 s2 : BkState),
      s1.stats = s2.stats →
      (visitForest cfg mp d1 rel pe fr s1).stats
        = (visitForest cfg mp d2 rel pe fr s2).stats
  | _, _, .nil, _, _, h => by simpa only [visitForest] using h
  | rel, pe, .cons t ts, s1, s2, h => by
      simp only [visitForest]
      by_cases hk : keepChild cfg mp rel pe t.name = true
      · simp only [hk, if_true]
        exact visitForest_stats_eq cfg mp d1 d2 rel pe ts _ _
          (visitTree_stats_eq cfg mp d1 d2 rel t s1 s2 h)
      · simp only [hk, if_false]
        exact visitForest_stats_eq cfg mp d1 d2 rel pe ts _ _ h
end

/-- Statistics of the per-project loop do not depend on the dry-run flag. -/
theorem backupLoop_stats_eq (cfg : BkConfig) (d1 d2 : Bool) :
    ∀ (ps : List FSTree) (mp : List String) (s1 s2 : BkState), s1.stats = s2.stats →
      (backupLoop cfg d1 ps mp s1).stats = (backupLoop cfg d2 ps mp s2).stats
  | [], _, _, _, h => by simpa only [backupLoop] using h
  | p :: rest, mp, s1, s2, h => by
      simp only [backupLoop]
      by_cases ha : cfg.auto_include_modules = true
      · simp only [ha, if_true]
        refine backupLoop_stats_eq cfg d1 d2 rest _ _ _
          (visitTree_stats_eq cfg _ d1 d2 [] p _ _ ?_)
        simp [h]
      · simp only [ha, if_false]
        exact backupLoop_stats_eq cfg d1 d2 rest mp _ _
          (visitTree_stats_eq cfg mp d1 d2 [] p s1 s2 h)

/-- C2: over any projects tree and configuration, a dry-run backup and a
real backup report identical statistics (files included, files from custom
paths, size-rejection count and bytes, module count), the dry run creates no
container file, and the real run does. -/
theorem dry_run_equivalence (cfg : BkConfig) (root : FSForest) :
    (backup cfg root true).stats = (backup cfg root false).stats
      ∧ (backup cfg root true).container = none
      ∧ ((backup cfg root false).container).isSome = true := by
  refine ⟨?_, rfl, rfl⟩
  exact backupLoop_stats_eq cfg true false (get_project_dirs cfg root) [] _ _ rfl

/-- C3 counterexample: `virtualenv` belongs to the environment-directory
name set (`venv_dirs`), but the `in_venv` test of the walk checks only the
four names `venv`, `.venv`, `env`, `.env`.  A non-marker file `foo.py`
inside a `virtualenv` directory, scanned with environment inclusion enabled
and no explicit include, is therefore accepted through the important-file
allowlist instead of being dropped — refuting "accepted if and only if the
name matches an environment-marker file name" for that directory set. -/
theorem venv_directory_set_counterexample :
    venv_dirs.contains "virtualenv" = true
      ∧ inVenvCheck (["home", "user", "PycharmProjects"] ++ ["proj1", "virtualenv"]) = false
      ∧ fileDecision ⟨true, [], 1000000, [], [], [], true, ["home", "user", "PycharmProjects"]⟩
          false
          (inVenvCheck (["home", "user", "PycharmProjects"] ++ ["proj1", "virtualenv"]))
          ["proj1", "virtualenv"] ⟨"foo.py", 10⟩
          = FileDecision.includedImportant
      ∧ venv_important_match (["home", "user", "PycharmProjects"] ++ ["proj1", "virtualenv"])
          "foo.py" = false := by
  decide

/-- C3 (amended): for a file visited inside a directory whose absolute path
contains one of the four in-venv names (`venv`, `.venv`, `env`, `.env` —
the walk's test omits `virtualenv`), with environment inclusion enabled, not
explicitly included, passing custom exclusion and the size cap, the pipeline
accepts the file exactly when its path matches one of the
`venv_important_files` patterns (the `*marker*` glob match), and drops it
otherwise — the important-file allowlist is not consulted. -/
theorem venv_marker_filter (cfg : BkConfig) (rel : List String) (f : FSFile)
    (henv : inVenvCheck (cfg.prefixParts ++ rel) = true)
    (hv : cfg.include_venv = true)
    (hx : should_exclude_file (joinParts (cfg.prefixParts ++ rel ++ [f.name]))
            cfg.custom_excludes = false)
    (hsz : f.size ≤ cfg.max_size_bytes) :
    fileDecision cfg false (inVenvCheck (cfg.prefixParts ++ rel)) rel f
      = (if venv_important_match (cfg.prefixParts ++ rel) f.name
         then FileDecision.includedVenv else FileDecision.skipped) := by
  have hns : ¬ (cfg.max_size_bytes < f.size) := Nat.not_lt.mpr hsz
  simp only [fileDecision, henv, hv, hx, Bool.and_self, Bool.false_eq_true, if_false,
    hns, if_true, Bool.true_and]

/-- Closed instance of the venv-marker filter at a marker file inside a
`venv` directory. -/
theorem venv_marker_filter_witness :
    inVenvCheck (["home", "user", "PycharmProjects"] ++ ["proj1", "venv"]) = true
      ∧ fileDecision ⟨true, [], 1000000, [], [], [], true, ["home", "user", "PycharmProjects"]⟩
          false (inVenvCheck (["home", "user", "PycharmProjects"] ++ ["proj1", "venv"]))
          ["proj1", "venv"] ⟨"pyvenv.cfg", 10⟩
          = (if venv_important_match (["home", "user", "PycharmProjects"] ++ ["proj1", "venv"])
               "pyvenv.cfg"
             then FileDecision.includedVenv else FileDecision.skipped) :=
  ⟨by decide,
   venv_marker_filter ⟨true, [], 1000000, [], [], [], true, ["home", "user", "PycharmProjects"]⟩
     ["proj1", "venv"] ⟨"pyvenv.cfg", 10⟩ (by decide) (by decide) (by decide) (by decide)⟩

/-- C5: for a file that passes custom exclusion and whose decision arm would
accept it, a size exactly equal to the configured maximum is included, while
a size of the maximum plus one byte is rejected: the decision is
`sizeRejected`, and the statistics gain one rejected file and its byte
size. -/
theorem size_boundary (cfg : BkConfig) (pathExpl inVenv : Bool) (rel : List String)
    (fname : String)
    (hx : should_exclude_file (joinParts (cfg.prefixParts ++ rel ++ [fname]))
            cfg.custom_excludes = false)
    (hacc : wouldAccept cfg pathExpl inVenv rel fname = true) :
    isIncludedDecision (fileDecision cfg pathExpl inVenv rel
        ⟨fname, cfg.max_size_bytes⟩) = true
      ∧ fileDecision cfg pathExpl inVenv rel ⟨fname, cfg.max_size_bytes + 1⟩
          = FileDecision.sizeRejected
      ∧ ∀ (d : Bool) (st : BkState),
          (stepFile cfg d pathExpl inVenv rel ⟨fname, cfg.max_size_bytes + 1⟩ st).stats
            = { st.stats with
                excluded_size := st.stats.excluded_size + (cfg.max_size_bytes + 1),
                excluded_count := st.stats.excluded_count + 1 } := by
  have hns : ¬ (cfg.max_size_bytes < cfg.max_size_bytes) := Nat.lt_irrefl _
  have hlt : cfg.max_size_bytes < cfg.max_size_bytes + 1 := Nat.lt_succ_self _
  have hrej : fileDecision cfg pathExpl inVenv rel ⟨fname, cfg.max_size_bytes + 1⟩
      = FileDecision.sizeRejected := by
    cases pathExpl <;>
      simp only [fileDecision, hx, Bool.false_eq_true, if_false, hlt, if_true]
  refine ⟨?_, hrej, ?_⟩
  · cases pathExpl
    · simp only [wouldAccept, Bool.false_or] at hacc
      cases hb : (inVenv && cfg.include_venv)
      · rw [hb] at hacc
        simp only [Bool.false_eq_true, if_false] at hacc
        simp only [fileDecision, hx, Bool.false_eq_true, if_false, hns, if_true, hb,
          hacc, isIncludedDecision]
      · rw [hb] at hacc
        simp only [if_true] at hacc
        simp only [fileDecision, hx, Bool.false_eq_true, if_false, hns, if_true, hb,
          hacc, isIncludedDecision]
    · simp only [fileDecision, hx, Bool.false_eq_true, if_false, hns, if_true,
        isIncludedDecision]
  · intro d st
    simp only [stepFile, hrej]

/-- Closed instance of the size boundary for an explicitly included file. -/
theorem size_boundary_witness :
    isIncludedDecision (fileDecision ⟨false, [], 100, ["proj1"], [], [], true, ["home"]⟩
        true false ["proj1", "data"] ⟨"blob.bin", 100⟩) = true
      ∧ fileDecision ⟨false, [], 100, ["proj1"], [], [], true, ["home"]⟩
          true false ["proj1", "data"] ⟨"blob.bin", 101⟩ = FileDecision.sizeRejected
      ∧ ∀ (d : Bool) (st : BkState),
          (stepFile ⟨false, [], 100, ["proj1"], [], [], true, ["home"]⟩
              d true false ["proj1", "data"] ⟨"blob.bin", 101⟩ st).stats
            = { st.stats with
                excluded_size := st.stats.excluded_size + 101,
                excluded_count := st.stats.excluded_count + 1 } :=
  size_boundary ⟨false, [], 100, ["proj1"], [], [], true, ["home"]⟩
    true false ["proj1", "data"] "blob.bin" (by decide) (by decide)

/-- C6: for a file whose directory matches an explicit include path or an
auto-detected module path (`pathExpl` is the walk's test), passing custom
exclusion: a size above the configured maximum is still rejected and counted
in the size-rejection statistics, a size within the cap is accepted as a
custom-path file regardless of the important-file allowlist, and a child
directory matching an include path survives pruning even when
`is_excluded_dir` holds. -/
theorem explicit_include_size_cap (cfg : BkConfig) (mp : List String)
    (inVenv : Bool) (rel : List String) (f : FSFile) (pathExpl : Bool)
    (hdef : pathExpl = (is_in_include_paths (joinParts rel) cfg.include_paths
                        || is_in_include_paths (joinParts rel) mp))
    (hexpl : pathExpl = true)
    (hx : should_exclude_file (joinParts (cfg.prefixParts ++ rel ++ [f.name]))
            cfg.custom_excludes = false) :
    (cfg.max_size_bytes < f.size →
        fileDecision cfg pathExpl inVenv rel f = FileDecision.sizeRejected
          ∧ ∀ (d : Bool) (st : BkState),
              (stepFile cfg d pathExpl inVenv rel f st).stats
                = { st.stats with
                    excluded_size := st.stats.excluded_size + f.size,
                    excluded_count := st.stats.excluded_count + 1 })
      ∧ (f.size ≤ cfg.max_size_bytes →
          fileDecision cfg pathExpl inVenv rel f = FileDecision.includedCustom)
      ∧ (∀ (pe : Bool) (c : String),
          is_in_include_paths (joinParts (rel ++ [c])) cfg.include_paths = true →
            keepChild cfg mp rel pe c = true) := by
  refine ⟨?_, ?_, ?_⟩
  · intro hbig
    have hrej : fileDecision cfg pathExpl inVenv rel f = FileDecision.sizeRejected := by
      simp only [fileDecision, hexpl, if_true, hx, Bool.false_eq_true, if_false,
        hbig]
    refine ⟨hrej, ?_⟩
    intro d st
    simp only [stepFile, hrej]
  · intro hsmall
    have hns : ¬ (cfg.max_size_bytes < f.size) := Nat.not_lt.mpr hsmall
    simp only [fileDecision, hexpl, if_true, hx, Bool.false_eq_true, if_false, hns]
  · intro pe c hc
    simp only [keepChild, hc, Bool.or_true, Bool.true_or]

/-- Closed instance of the explicit-include tie-break: an oversized and an
in-cap file under an include path inside a directory named like a default
exclusion. -/
theorem explicit_include_size_cap_witness :
    (100 < 101 →
        fileDecision ⟨false, [], 100, ["proj1/build"], [], [], true, ["home"]⟩
            true false ["proj1", "build"] ⟨"out.bin", 101⟩ = FileDecision.sizeRejected
          ∧ ∀ (d : Bool) (st : BkState),
              (stepFile ⟨false, [], 100, ["proj1/build"], [], [], true, ["home"]⟩
                  d true false ["proj1", "build"] ⟨"out.bin", 101⟩ st).stats
                = { st.stats with
                    excluded_size := st.stats.excluded_size + 101,
                    excluded_count := st.stats.excluded_count + 1 })
      ∧ (101 ≤ 100 →
          fileDecision ⟨false, [], 100, ["proj1/build"], [], [], true, ["home"]⟩
              true false ["proj1", "build"] ⟨"out.bin", 101⟩ = FileDecision.includedCustom)
      ∧ (∀ (pe : Bool) (c : String),
          is_in_include_paths (joinParts (["proj1", "build"] ++ [c])) ["proj1/build"] = true →
            keepChild ⟨false, [], 100, ["proj1/build"], [], [], true, ["home"]⟩
              [] ["proj1", "build"] pe c = true) :=
  explicit_include_size_cap ⟨false, [], 100, ["proj1/build"], [], [], true, ["home"]⟩
    [] false ["proj1", "build"] ⟨"out.bin", 101⟩ true (by decide) (by decide) (by decide)

/-! ### C4: namespace listing and restore isolation -/

theorem mem_list_projects (entries : List String) (s : String) :
    s ∈ list_projects_in_backup entries
      ↔ ∃ n ∈ entries, isReservedEntry n = false ∧ entrySecondSeg n = some s := by
  unfold list_projects_in_backup
  rw [mem_sortStr, mem_dedupStr, List.mem_filterMap]
  constructor
  · rintro ⟨n, hn, hf⟩
    cases hr : isReservedEntry n
    · rw [hr] at hf
      simp only [Bool.false_eq_true, if_false] at hf
      exact ⟨n, hn, hr, hf⟩
    · rw [hr] at hf
      simp at hf
  · rintro ⟨n, hn, hr, hseg⟩
    refine ⟨n, hn, ?_⟩
    rw [hr]
    simpa using hseg

theorem listing_not_reserved (entries : List String)
    (hwf : entries.all (fun n =>
        match entrySecondSeg n with
        | some r => !(r == "_pycharm_recent_projects" || r == "_pycharm_global_settings")
                      || isReservedEntry n
        | none => true) = true) :
    ∀ p ∈ list_projects_in_backup entries,
      p ≠ "_pycharm_recent_projects" ∧ p ≠ "_pycharm_global_settings" := by
  intro p hp
  obtain ⟨n, hn, hnr, hseg⟩ := (mem_list_projects entries p).mp hp
  have hall := List.all_eq_true.mp hwf n hn
  simp only [hseg] at hall
  cases hb : (p == "_pycharm_recent_projects" || p == "_pycharm_global_settings")
  · simp only [Bool.or_eq_false_iff, beq_eq_false_iff_ne] at hb
    exact hb
  · rw [hnr, hb] at hall
    simp at hall

theorem restore_all_sound (base : String) (entries : List String)
    (hslash : ('/' : Char) ∉ base.data)
    (h1 : base ≠ "_pycharm_recent_projects") (h2 : base ≠ "_pycharm_global_settings") :
    ∀ e ∈ restore_all_extracted base entries false false,
      isReservedEntry e = false
        ∧ ∃ p ∈ list_projects_in_backup entries,
            strStarts e (base ++ "/" ++ p) = true := by
  intro e he
  unfold restore_all_extracted at he
  simp only [Bool.false_eq_true, if_false, List.append_nil] at he
  obtain ⟨p, hp, hep⟩ := List.mem_flatMap.mp he
  have hstart : strStarts e (base ++ "/" ++ p) = true :=
    (List.mem_filter.mp hep).2
  have hbasepre : charsPre (base.data ++ [('/' : Char)]) e.data = true := by
    have hd : (base ++ "/" ++ p).data = (base.data ++ [('/' : Char)]) ++ p.data := by
      rw [data_append, data_append]
    have := hstart
    unfold strStarts at this
    rw [hd] at this
    exact charsPre_of_append _ _ _ this
  refine ⟨?_, p, hp, hstart⟩
  cases hres : isReservedEntry e
  · rfl
  · exfalso
    unfold isReservedEntry at hres
    rcases Bool.or_eq_true_iff.mp hres with hrec | hglo
    · have hr : charsPre ("_pycharm_recent_projects".data ++ [('/' : Char)]) e.data = true := by
        have : reservedRecent.data = "_pycharm_recent_projects".data ++ [('/' : Char)] := by decide
        unfold strStarts at hrec
        rwa [this] at hrec
      have heq : base.data = "_pycharm_recent_projects".data :=
        slash_bodies_eq _ _ e.data hslash (by decide) hbasepre hr
      exact h1 (by
        have := congrArg String.mk heq
        simpa using this)
    · have hr : charsPre ("_pycharm_global_settings".data ++ [('/' : Char)]) e.data = true := by
        have : reservedGlobalSettings.data = "_pycharm_global_settings".data ++ [('/' : Char)] := by decide
        unfold strStarts at hglo
        rwa [this] at hglo
      have heq : base.data = "_pycharm_global_settings".data :=
        slash_bodies_eq _ _ e.data hslash (by decide) hbasepre hr
      exact h2 (by
        have := congrArg String.mk heq
        simpa using this)

theorem restore_reserved_with_flags (base : String) (entries : List String) :
    ∀ e ∈ entries, isReservedEntry e = true →
      e ∈ restore_all_extracted base entries true true := by
  intro e he hres
  unfold restore_all_extracted
  simp only [if_true]
  unfold isReservedEntry at hres
  rcases Bool.or_eq_true_iff.mp hres with h | h
  · exact List.mem_append.mpr (Or.inl (List.mem_append.mpr
      (Or.inr (List.mem_filter.mpr ⟨he, h⟩))))
  · exact List.mem_append.mpr (Or.inr (List.mem_filter.mpr ⟨he, h⟩))

/-- C4 counterexample: for the archive holding the single entry
`Projects/alpha/.idea/misc.xml`, the listing returns `alpha` — the second
path segment — while the distinct top-level segments of the non-reserved
entries are `Projects`; the claimed "listing returns exactly the distinct
project top-level segments" fails. -/
theorem listing_second_segment_counterexample :
    list_projects_in_backup ["Projects/alpha/.idea/misc.xml"] = ["alpha"]
      ∧ specTopLevelSegs ["Projects/alpha/.idea/misc.xml"] = ["Projects"]
      ∧ list_projects_in_backup ["Projects/alpha/.idea/misc.xml"]
          ≠ specTopLevelSegs ["Projects/alpha/.idea/misc.xml"] := by
  refine ⟨by decide, by decide, ?_⟩
  decide

/-- C4 (amended): the listing returns exactly the distinct second path
segments (the project name beneath the projects-directory segment) of the
entries outside the two reserved prefixes; whenever every entry whose second
segment is a reserved name lies under a reserved prefix (as in archives
written by `create_backup`), no reserved namespace is listed; a scope-`all`
restore with both reserved flags off extracts only entries of listed
projects and never a reserved entry (the projects-directory basename being
slash-free and not itself a reserved name); and the reserved entries are
extracted when their dedicated flags are set. -/
theorem namespace_isolation (entries : List String) (base : String)
    (hslash : ('/' : Char) ∉ base.data)
    (h1 : base ≠ "_pycharm_recent_projects")
    (h2 : base ≠ "_pycharm_global_settings")
    (hwf : entries.all (fun n =>
        match entrySecondSeg n with
        | some r => !(r == "_pycharm_recent_projects" || r == "_pycharm_global_settings")
                      || isReservedEntry n
        | none => true) = true) :
    (∀ s, s ∈ list_projects_in_backup entries
        ↔ ∃ n ∈ entries, isReservedEntry n = false ∧ entrySecondSeg n = some s)
      ∧ (∀ p ∈ list_projects_in_backup entries,
          p ≠ "_pycharm_recent_projects" ∧ p ≠ "_pycharm_global_settings")
      ∧ (∀ e ∈ restore_all_extracted base entries false false,
          isReservedEntry e = false
            ∧ ∃ p ∈ list_projects_in_backup entries,
                strStarts e (base ++ "/" ++ p) = true)
      ∧ (∀ e ∈ entries, isReservedEntry e = true →
          e ∈ restore_all_extracted base entries true true) :=
  ⟨mem_list_projects entries, listing_not_reserved entries hwf,
   restore_all_sound base entries hslash h1 h2,
   restore_reserved_with_flags base entries⟩

/-- Closed instance of the namespace-isolation theorem at an archive with
three projects and both reserved payload sets. -/
theorem namespace_isolation_witness :
    (∀ s, s ∈ list_projects_in_backup
          ["Projects/alpha/.idea/misc.xml", "Projects/beta/.idea/workspace.xml",
           "Projects/gamma/.idea/vcs.xml",
           "_pycharm_recent_projects/PyCharm2023.1/recentProjects.xml",
           "_pycharm_global_settings/PyCharm2023.1/options/ide.general.xml"]
        ↔ ∃ n ∈ ["Projects/alpha/.idea/misc.xml", "Projects/beta/.idea/workspace.xml",
                 "Projects/gamma/.idea/vcs.xml",
                 "_pycharm_recent_projects/PyCharm2023.1/recentProjects.xml",
                 "_pycharm_global_settings/PyCharm2023.1/options/ide.general.xml"],
            isReservedEntry n = false ∧ entrySecondSeg n = some s)
      ∧ (∀ p ∈ list_projects_in_backup
            ["Projects/alpha/.idea/misc.xml", "Projects/beta/.idea/workspace.xml",
             "Projects/gamma/.idea/vcs.xml",
             "_pycharm_recent_projects/PyCharm2023.1/recentProjects.xml",
             "_pycharm_global_settings/PyCharm2023.1/options/ide.general.xml"],
          p ≠ "_pycharm_recent_projects" ∧ p ≠ "_pycharm_global_settings")
      ∧ (∀ e ∈ restore_all_extracted "Projects"
            ["Projects/alpha/.idea/misc.xml", "Projects/beta/.idea/workspace.xml",
             "Projects/gamma/.idea/vcs.xml",
             "_pycharm_recent_projects/PyCharm2023.1/recentProjects.xml",
             "_pycharm_global_settings/PyCharm2023.1/options/ide.general.xml"] false false,
          isReservedEntry e = false
            ∧ ∃ p ∈ list_projects_in_backup
                  ["Projects/alpha/.idea/misc.xml", "Projects/beta/.idea/workspace.xml",
                   "Projects/gamma/.idea/vcs.xml",
                   "_pycharm_recent_projects/PyCharm2023.1/recentProjects.xml",
                   "_pycharm_global_settings/PyCharm2023.1/options/ide.general.xml"],
                strStarts e ("Projects" ++ "/" ++ p) = true)
      ∧ (∀ e ∈ ["Projects/alpha/.idea/misc.xml", "Projects/beta/.idea/workspace.xml",
                "Projects/gamma/.idea/vcs.xml",
                "_pycharm_recent_projects/PyCharm2023.1/recentProjects.xml",
                "_pycharm_global_settings/PyCharm2023.1/options/ide.general.xml"],
          isReservedEntry e = true →
            e ∈ restore_all_extracted "Projects"
              ["Projects/alpha/.idea/misc.xml", "Projects/beta/.idea/workspace.xml",
               "Projects/gamma/.idea/vcs.xml",
               "_pycharm_recent_projects/PyCharm2023.1/recentProjects.xml",
               "_pycharm_global_settings/PyCharm2023.1/options/ide.general.xml"] true true) :=
  namespace_isolation
    ["Projects/alpha/.idea/misc.xml", "Projects/beta/.idea/workspace.xml",
     "Projects/gamma/.idea/vcs.xml",
     "_pycharm_recent_projects/PyCharm2023.1/recentProjects.xml",
     "_pycharm_global_settings/PyCharm2023.1/options/ide.general.xml"]
    "Projects" (by decide) (by decide) (by decide) (by decide)

/-! ### C9: backup filename patterns of clean_old_backups and list_backups -/

theorem stripLit_self_append : ∀ (p s : List Char), stripLit p (p ++ s) = some s := by
  intro p
  induction p with
  | nil => intro s; rfl
  | cons a as ih =>
    intro s
    simp only [List.cons_append, stripLit, beq_self_eq_true, if_true]
    exact ih s

theorem digitChar_isDigit (n : Nat) : (digitChar n).isDigit = true := by
  unfold digitChar
  split <;> decide

theorem stripDigit_digitChar (n : Nat) (cs : List Char) :
    stripDigit (digitChar n :: cs) = some cs := by
  simp only [stripDigit, digitChar_isDigit, if_true]

theorem stripLit_underscore_digitChar (n : Nat) (cs : List Char) :
    stripLit [('_' : Char)] (digitChar n :: cs) = none := by
  have h : (('_' : Char) == digitChar n) = false := by
    unfold digitChar
    split <;> decide
  simp only [stripLit, h, Bool.false_eq_true, if_false]

theorem defaultBackupName_data (y mo d h mi : Nat) :
    (defaultBackupName y mo d h mi).data
      = "pycharm_idea_backup_".data
          ++ (digitChar (y / 1000) :: digitChar (y / 100) :: digitChar (y / 10)
              :: digitChar y
              :: '-' :: digitChar (mo / 10) :: digitChar mo
              :: '-' :: digitChar (d / 10) :: digitChar d
              :: '_' :: digitChar (h / 10) :: digitChar h
              :: '-' :: digitChar (mi / 10) :: digitChar mi
              :: '.' :: 'z' :: 'i' :: 'p' :: []) := rfl

theorem clean_pattern_rejects_default (y mo d h mi : Nat) :
    cleanBackupMatch (defaultBackupName y mo d h mi) = false := by
  unfold cleanBackupMatch cleanBackupPatChars
  rw [defaultBackupName_data, stripLit_self_append]
  simp only [Option.some_bind, stripDigit_digitChar, stripLit_underscore_digitChar,
    Option.none_bind, Option.isSome_none]

theorem list_pattern_accepts_default (y mo d h mi : Nat) :
    listBackupMatch (defaultBackupName y mo d h mi) = true
      ∧ isDefaultNameShape (defaultBackupName y mo d h mi) = true := by
  have hchain : listBackupPatChars (defaultBackupName y mo d h mi).data = some [] := by
    unfold listBackupPatChars
    rw [defaultBackupName_data, stripLit_self_append]
    simp only [Option.some_bind, stripDigit_digitChar, stripLit, beq_self_eq_true,
      if_true]
  constructor
  · unfold listBackupMatch
    rw [hchain]
    rfl
  · unfold isDefaultNameShape
    rw [hchain]
    rfl

theorem default_not_in_clean (y mo d h mi : Nat) (listing : List String)
    (mtime : String → Nat) (maxB : Int) :
    defaultBackupName y mo d h mi ∉ clean_old_backups listing mtime maxB := by
  intro hmem
  unfold clean_old_backups at hmem
  simp only [] at hmem
  split at hmem
  · exact absurd hmem (List.not_mem_nil _)
  · split at hmem
    · exact absurd hmem (List.not_mem_nil _)
    · have h1 : defaultBackupName y mo d h mi
          ∈ sortDesc mtime (listing.filter cleanBackupMatch) :=
        List.mem_of_mem_drop hmem
      have h2 : defaultBackupName y mo d h mi ∈ listing.filter cleanBackupMatch :=
        (mem_sortDesc mtime _ _).mp h1
      have h3 := (List.mem_filter.mp h2).2
      rw [clean_pattern_rejects_default] at h3
      exact absurd h3 (by decide)

/-- C9 counterexample: the `list_backups` pattern is applied with `re.match`,
which is a prefix match, so it also accepts the name
`pycharm_idea_backup_2025-10-12_05-00.zip.extra`, which is not of the
default shape produced by `create_backup` — refuting "list_backups matches
exactly the default-named ones". -/
theorem list_pattern_not_exact_counterexample :
    listBackupMatch "pycharm_idea_backup_2025-10-12_05-00.zip.extra" = true
      ∧ isDefaultNameShape "pycharm_idea_backup_2025-10-12_05-00.zip.extra" = false := by
  decide

/-- C9 (amended): for every timestamp of the `strftime` domain, the default
backup name written by `create_backup` is rejected by the
`clean_old_backups` pattern (which expects two digits, underscore, two
digits, underscore, four digits), is accepted by the `list_backups` pattern
and is of the default shape, and `clean_old_backups` therefore never deletes
it, whatever the directory listing, the modification times and the
`max_backups` value.  (Being a prefix match, the `list_backups` pattern may
also accept names extending a default-shaped prefix.) -/
theorem default_backup_never_cleaned (y mo d h mi : Nat) (listing : List String)
    (mtime : String → Nat) (maxB : Int)
    (hy1 : 1000 ≤ y) (hy2 : y ≤ 9999) (hmo : mo ≤ 12) (hd : d ≤ 31)
    (hh : h ≤ 23) (hmi : mi ≤ 59) :
    cleanBackupMatch (defaultBackupName y mo d h mi) = false
      ∧ listBackupMatch (defaultBackupName y mo d h mi) = true
      ∧ isDefaultNameShape (defaultBackupName y mo d h mi) = true
      ∧ defaultBackupName y mo d h mi ∉ clean_old_backups listing mtime maxB :=
  ⟨clean_pattern_rejects_default y mo d h mi,
   (list_pattern_accepts_default y mo d h mi).1,
   (list_pattern_accepts_default y mo d h mi).2,
   default_not_in_clean y mo d h mi listing mtime maxB⟩

/-- Closed instance of the cleaning theorem at a concrete timestamp and a
listing that contains the default-named backup itself. -/
theorem default_backup_never_cleaned_witness :
    cleanBackupMatch (defaultBackupName 2025 10 12 5 0) = false
      ∧ listBackupMatch (defaultBackupName 2025 10 12 5 0) = true
      ∧ isDefaultNameShape (defaultBackupName 2025 10 12 5 0) = true
      ∧ defaultBackupName 2025 10 12 5 0
          ∉ clean_old_backups
              [defaultBackupName 2025 10 12 5 0, "pycharm_idea_backup_12_10_2025.zip",
               "pycharm_idea_backup_11_10_2025.zip"]
              (fun _ => 7) 1 :=
  default_backup_never_cleaned 2025 10 12 5 0
    [defaultBackupName 2025 10 12 5 0, "pycharm_idea_backup_12_10_2025.zip",
     "pycharm_idea_backup_11_10_2025.zip"]
    (fun _ => 7) 1
    (by decide) (by decide) (by decide) (by decide) (by decide) (by decide)

end PyCharmBackup

/-! ## Executable checks of the embedding on concrete inputs -/

section ModelChecks
open PyCharmBackup
example : strStarts "abc/def" "abc" = true := by decide
example : strStarts "abc" "" = true := by decide
example : strContains "hello_world" "lo_w" = true := by decide
example : strContains "hello" "xyz" = false := by decide
example : strContains "hello" "" = true := by decide
example : strEnds "MyScripts" "Scripts" = true := by decide
example : strEnds "Scriptsx" "Scripts" = false := by decide
example : joinParts ["a", "b", "c"] = "a/b/c" := by decide
example : pySplitSlash "a/b" = ["a", "b"] := by decide
example : pySplitSlash "a/" = ["a", ""] := by decide
example : pySplitSlash "" = [""] := by decide
example : pyPathParts "a//b/" = ["a", "b"] := by decide
example : pySuffix "foo.py" = ".py" := by decide
example : pySuffix ".gitignore" = "" := by decide
example : pySuffix "foo." = "" := by decide
example : pySuffix "a.b.c" = ".c" := by decide
example : pySuffix "noext" = "" := by decide
example : strLower "A.PY" = "a.py" := by decide
example : normSlash "a\\b" = "a/b" := by decide
example : is_important_file ["foo.PY"] false = true := by decide
example : is_important_file ["Makefile"] true = true := by decide
example : is_important_file ["foo.bin"] true = false := by decide
example : is_important_file [".gitignore"] false = true := by decide
example : is_excluded_dir "venv" false [] = true := by decide
example : is_excluded_dir "venv" true [] = false := by decide
example : is_excluded_dir "my_logs_dir" false ["logs"] = true := by decide
example : is_in_include_paths "a/b/c" ["a/b"] = true := by decide
example : is_in_include_paths "a/b/c" [] = false := by decide
example : find_all_modules_tree []
    (.node "proj" [] (.cons (.node "pkg" [⟨"__init__.py", 1⟩] .nil) .nil))
    = [["proj", "pkg"]] := by decide

def testCfg : PyCharmBackup.BkConfig :=
  ⟨false, [], 100, [], [], [], false, ["home", "user", "PycharmProjects"]⟩

example :
    (backup testCfg
      (.cons (.node "proj1" [] (.cons (.node "src" [⟨"a.py", 10⟩, ⟨"big.bin", 200⟩] .nil) .nil)) .nil)
      false)
    = { stats := ⟨1, 200, 1, 0, 0⟩, container := some ["proj1/src/a.py"] } := by decide

example :
    (backup testCfg
      (.cons (.node "proj1" [] (.cons (.node "src" [⟨"a.py", 10⟩, ⟨"big.bin", 200⟩] .nil) .nil)) .nil)
      true)
    = { stats := ⟨1, 200, 1, 0, 0⟩, container := none } := by decide

example :
    (backup { testCfg with auto_include_modules := true }
      (.cons (.node "proj1" [⟨"readme.bin", 5⟩]
        (.cons (.node "pkg" [⟨"__init__.py", 1⟩, ⟨"d.bin", 7⟩] .nil) .nil)) .nil)
      false)
    = { stats := ⟨2, 0, 0, 2, 1⟩, container := some ["proj1/pkg/__init__.py", "proj1/pkg/d.bin"] } := by decide

example :
    (backup { testCfg with include_venv := true }
      (.cons (.node "proj1" []
        (.cons (.node "venv" [⟨"pyvenv.cfg", 3⟩, ⟨"junk.py", 3⟩] .nil) .nil)) .nil)
      false)
    = { stats := ⟨1, 0, 0, 0, 0⟩, container := some ["proj1/venv/pyvenv.cfg"] } := by decide

example : defaultBackupName 2025 10 12 5 0 = "pycharm_idea_backup_2025-10-12_05-00.zip" := by decide
example : cleanBackupMatch "pycharm_idea_backup_2025-10-12_05-00.zip" = false := by decide
example : cleanBackupMatch "pycharm_idea_backup_12_10_2025.zip" = true := by decide
example : listBackupMatch "pycharm_idea_backup_2025-10-12_05-00.zip" = true := by decide
example : listBackupMatch "pycharm_idea_backup_2025-10-12_05-00.zip.extra" = true := by decide
example : isDefaultNameShape "pycharm_idea_backup_2025-10-12_05-00.zip.extra" = false := by decide
example : isDefaultNameShape "pycharm_idea_backup_2025-10-12_05-00.zip" = true := by decide
example : list_projects_in_backup
    ["Projects/beta/.idea/workspace.xml", "Projects/alpha/.idea/misc.xml",
     "_pycharm_recent_projects/PyCharm2023.1/recentProjects.xml"]
    = ["alpha", "beta"] := by decide
example : specTopLevelSegs ["Projects/alpha/.idea/misc.xml"] = ["Projects"] := by decide
example : (pb_restore ["p/a", "p/b", "q/c"] ["p"] (fun _ => true)).restored = ["p/a", "p/b"] := by decide
example : (pb_restore ["p/a"] [] (fun _ => false)).success = true := by decide
example : (pb_restore ["p/a"] ["zz"] (fun _ => true)).success = false := by decide
example : verify_backup ["a"] ["a", "b"] = false := by decide
example : clean_old_backups
    ["pycharm_idea_backup_12_10_2025.zip", "pycharm_idea_backup_11_10_2025.zip", "other.zip"]
    (fun s => if s = "pycharm_idea_backup_12_10_2025.zip" then 2 else 1) 1
    = ["pycharm_idea_backup_11_10_2025.zip"] := by decide
end ModelChecks
